import Mathlib

/-!
Shallow embedding of darktable's undo/redo engine, `src/common/undo.c`.

The engine keeps two stacks of recorded items (undo and redo, newest first),
a one-shot suppression flag, a `locked` flag reused as reentrancy guard, and
an open-group counter.  Mutation of C state becomes explicit state passing on
`dt_undo_t`; the caller-supplied callback pointers are modelled
observationally: every invocation of an item's `undo` callback or `free_data`
destructor is emitted as an `Event`, and each operation returns the list of
events it triggers in order.  Opaque pointers (`user_data`, payload `data`)
are modelled as `Nat` identities, the `double` wall-clock timestamp as a
rational number supplied by the environment at each recording call (the
engine only compares timestamp differences against `MAX_TIME_PERIOD`).
-/

namespace Undo

/-- Replay direction, mirroring `dt_undo_action_t` (`DT_ACTION_UNDO` /
`DT_ACTION_REDO`). -/
inductive Action where
  | undo
  | redo
deriving DecidableEq

/-- Modelled from the spec: the kind type `dt_undo_type_t` lives in the header
`common/undo.h`, which is not among the sources; per the spec, kinds are
bitmask categories tested with `&`, and `DT_UNDO_NONE` is the distinguished
"no group open" marker, distinct from every real kind. -/
def DT_UNDO_NONE : Nat := 0

/-- One recorded unit, mirroring `dt_undo_item_t`.  `hasFree` records whether
the `free_data` destructor pointer is non-NULL. -/
structure Item where
  user_data : Nat
  type : Nat
  data : Nat
  ts : ℚ
  is_group : Bool
  hasFree : Bool
deriving DecidableEq

/-- Observable callback invocations: `apply` is a call to an item's `undo`
callback with the stored `(user_data, type, data)` and the replay direction;
`free` is a call to a payload's `free_data` destructor. -/
inductive Event where
  | apply (user_data : Nat) (type : Nat) (data : Nat) (action : Action)
  | free (data : Nat)
deriving DecidableEq

/-- The engine state, mirroring `dt_undo_t`: the two stacks (newest first),
the one-shot suppression flag, the `locked` flag set for the duration of each
locked section, and the open-group bookkeeping (`group`, `group_indent`). -/
structure dt_undo_t where
  undo_list : List Item
  redo_list : List Item
  disable_next : Bool
  locked : Bool
  group : Nat
  group_indent : Nat
deriving DecidableEq

/-- `dt_undo_init`: fresh engine, both stacks empty, flags clear, no group. -/
def dt_undo_init : dt_undo_t :=
  ⟨[], [], false, false, DT_UNDO_NONE, 0⟩

/-- `dt_undo_disable_next`: arm the one-shot suppression flag. -/
def dt_undo_disable_next (s : dt_undo_t) : dt_undo_t :=
  { s with disable_next := true }

/-- `_free_undo_data`: release an item's payload through its destructor, when
a destructor was supplied. -/
def free_undo_data (item : Item) : List Event :=
  if item.hasFree then [Event.free item.data] else []

/-- `_undo_record`, the common recording path.  When the one-shot suppression
flag is set, the incoming payload is released (if a destructor was supplied)
and the flag resets; otherwise, when `locked` (a replay is in progress), the
call is dropped entirely; otherwise a fresh item stamped `ts` is prepended to
the undo stack and the entire redo stack is released. -/
def undo_record (s : dt_undo_t) (user_data type data : Nat) (is_group hasFree : Bool)
    (ts : ℚ) : dt_undo_t × List Event :=
  if s.disable_next then
    ({ s with disable_next := false }, if hasFree then [Event.free data] else [])
  else if s.locked then
    (s, [])
  else
    ({ s with
        undo_list := ⟨user_data, type, data, ts, is_group, hasFree⟩ :: s.undo_list,
        redo_list := [] },
      s.redo_list.flatMap free_undo_data)

/-- `dt_undo_record`: the public recording entry point (a plain, non-sentinel
item). -/
def dt_undo_record (s : dt_undo_t) (user_data type data : Nat) (hasFree : Bool)
    (ts : ℚ) : dt_undo_t × List Event :=
  undo_record s user_data type data false hasFree ts

/-- `dt_undo_start_group`: when no group is open, open one of the given kind
and record a start sentinel; otherwise just deepen the nesting counter. -/
def dt_undo_start_group (s : dt_undo_t) (type : Nat) (ts : ℚ) : dt_undo_t × List Event :=
  if s.group = DT_UNDO_NONE then
    undo_record { s with group := type, group_indent := 1 } 0 type 0 true false ts
  else
    ({ s with group_indent := s.group_indent + 1 }, [])

/-- `dt_undo_end_group`: the `assert(self->group_indent>0)` precondition is
modelled by returning `none` when the nesting depth is already zero;
otherwise the depth is decremented and, exactly on reaching zero, an end
sentinel carrying the open group's kind is recorded and the open-group state
resets to `DT_UNDO_NONE`. -/
def dt_undo_end_group (s : dt_undo_t) (ts : ℚ) : Option (dt_undo_t × List Event) :=
  if s.group_indent = 0 then
    none
  else
    let s1 : dt_undo_t := { s with group_indent := s.group_indent - 1 }
    if s1.group_indent = 0 then
      let r := undo_record s1 0 s.group 0 true false ts
      some ({ r.1 with group := DT_UNDO_NONE }, r.2)
    else
      some (s1, [])

/-- `MAX_TIME_PERIOD`: the 0.5 second coalescing window. -/
def MAX_TIME_PERIOD : ℚ := 1 / 2

/-- The event produced by invoking an item's `undo` callback. -/
def invoke (item : Item) (action : Action) : Event :=
  Event.apply item.user_data item.type item.data action

/-- Inner loop of the sentinel branch of `_undo_do_undo_redo`: after the
leading sentinel has been moved, consume and move source items one by one —
invoking each non-sentinel item's callback, with no filter check — until a
sentinel is consumed or the stack runs out.  Returns (consumed items in
consumption order, remaining source, events). -/
def groupRun (action : Action) : List Item → List Item × List Item × List Event
  | [] => ([], [], [])
  | item :: rest =>
    if item.is_group = true then
      ([item], rest, [])
    else
      let r := groupRun action rest
      (item :: r.1, r.2.1, invoke item action :: r.2.2)

/-- The `do … while` loop of the plain-entry branch of `_undo_do_undo_redo`:
process the current item (a sentinel toggles the `in_group` flag instead of
being replayed), move it, and continue with the next source item as long as
it matches the filter and is either inside a nested group or within
`MAX_TIME_PERIOD` of the first item's timestamp.  Returns (consumed items in
consumption order, remaining source, events). -/
def coalesceLoop (filter : Nat) (action : Action) (first_ts : ℚ) :
    List Item → Bool → Item → List Item × List Item × List Event
  | [], _, item =>
    ([item], [],
      if item.is_group = true then [] else [invoke item action])
  | next :: rest, b, item =>
    let g : Bool := if item.is_group = true then !b else b
    let ev : List Event := if item.is_group = true then [] else [invoke item action]
    if next.type &&& filter ≠ 0 ∧ (g = true ∨ |next.ts - first_ts| < MAX_TIME_PERIOD) then
      let r := coalesceLoop filter action first_ts rest g next
      (item :: r.1, r.2.1, ev ++ r.2.2)
    else
      ([item], next :: rest, ev)

/-- The scan-and-batch body of `_undo_do_undo_redo` over the source stack:
skip items until the first one matching the filter; a matching sentinel heads
the group branch, a matching plain item heads the coalescing branch.  Returns
(new source stack, moved items in consumption order, events). -/
def performFrom (filter : Nat) (action : Action) :
    List Item → List Item × List Item × List Event
  | [] => ([], [], [])
  | item :: rest =>
    if item.type &&& filter ≠ 0 then
      if item.is_group = true then
        let r := groupRun action rest
        (r.2.1, item :: r.1, r.2.2)
      else
        let r := coalesceLoop filter action item.ts rest false item
        (r.2.1, r.1, r.2.2)
    else
      let r := performFrom filter action rest
      (item :: r.1, r.2.1, r.2.2)

/-- `_undo_do_undo_redo`: move one batch from the source stack to the
destination stack (UNDO reads the undo stack and writes the redo stack, REDO
is the mirror), replaying callbacks as the batch is consumed; moved items are
prepended to the destination one by one, so they land there reversed.  The
lock is released at the end (`locked := false`). -/
def undo_do_undo_redo (s : dt_undo_t) (filter : Nat) (action : Action) :
    dt_undo_t × List Event :=
  match action with
  | .undo =>
    let r := performFrom filter .undo s.undo_list
    ({ s with
        undo_list := r.1
        redo_list := r.2.1.reverse ++ s.redo_list
        locked := false },
      r.2.2)
  | .redo =>
    let r := performFrom filter .redo s.redo_list
    ({ s with
        redo_list := r.1
        undo_list := r.2.1.reverse ++ s.undo_list
        locked := false },
      r.2.2)

/-- `dt_undo_do_undo`. -/
def dt_undo_do_undo (s : dt_undo_t) (filter : Nat) : dt_undo_t × List Event :=
  undo_do_undo_redo s filter .undo

/-- `dt_undo_do_redo`. -/
def dt_undo_do_redo (s : dt_undo_t) (filter : Nat) : dt_undo_t × List Event :=
  undo_do_undo_redo s filter .redo

/-- `_undo_clear_list`: remove and release every item matching the filter,
keeping the other items in order. -/
def undo_clear_list (filter : Nat) : List Item → List Item × List Event
  | [] => ([], [])
  | item :: rest =>
    let r := undo_clear_list filter rest
    if item.type &&& filter ≠ 0 then
      (r.1, free_undo_data item ++ r.2)
    else
      (item :: r.1, r.2)

/-- `dt_undo_clear`: run `_undo_clear_list` over both stacks (releasing the
matching items), then unconditionally discard both whole stacks and reset the
one-shot suppression flag. -/
def dt_undo_clear (s : dt_undo_t) (filter : Nat) : dt_undo_t × List Event :=
  let ru := undo_clear_list filter s.undo_list
  let rr := undo_clear_list filter s.redo_list
  ({ s with undo_list := [], redo_list := [], disable_next := false, locked := false },
    ru.2 ++ rr.2)

/-- Auxiliary scan for `wfStack`: `b` records whether the scan is currently
between the two sentinels of a pair; a well-paired stack must finish the scan
outside any pair. -/
def wfAux : List Item → Bool → Bool
  | [], b => !b
  | i :: l, b => if i.is_group = true then wfAux l (!b) else wfAux l b

/-- Well-pairedness of a stored stack: scanning from the newest entry,
sentinels alternately open and close a sentinel pair and every opened pair is
eventually closed, so the stack decomposes into matching sentinel pairs
(with only plain entries strictly between the two members of each pair) plus
plain entries outside all pairs. -/
def wfStack (l : List Item) : Bool := wfAux l false

/-- Transaction-tracker invariant: flags clear, redo stack empty, and the
undo stack well paired — outright (`wfStack`) when no group is open, and
after the pending start sentinel is eventually matched (`wfAux … true`) when
a group is open, in which case the nesting depth is positive. -/
def TInv (s : dt_undo_t) : Prop :=
  s.disable_next = false ∧ s.locked = false ∧ s.redo_list = [] ∧
  (s.group = DT_UNDO_NONE → s.group_indent = 0 ∧ wfAux s.undo_list false = true) ∧
  (s.group ≠ DT_UNDO_NONE → 1 ≤ s.group_indent ∧ wfAux s.undo_list true = true)

/-- States reachable from a fresh engine through the recording surface alone:
`dt_undo_record`, `dt_undo_start_group` with a real (non-`DT_UNDO_NONE`)
kind, and `dt_undo_end_group` when its precondition holds. -/
inductive TReach : dt_undo_t → Prop where
  | init : TReach dt_undo_init
  | step_record (s : dt_undo_t) (u t d : Nat) (hf : Bool) (ts : ℚ) :
      TReach s → TReach (dt_undo_record s u t d hf ts).1
  | step_begin (s : dt_undo_t) (t : Nat) (ts : ℚ) :
      TReach s → t ≠ DT_UNDO_NONE → TReach (dt_undo_start_group s t ts).1
  | step_end (s s2 : dt_undo_t) (ev : List Event) (ts : ℚ) :
      TReach s → dt_undo_end_group s ts = some (s2, ev) → TReach s2

theorem undo_clear_list_events (filter : Nat) (l : List Item) :
    (undo_clear_list filter l).2 =
      (l.filter fun i => decide (i.type &&& filter ≠ 0)).flatMap free_undo_data := by
  induction l with
  | nil => rfl
  | cons i l ih =>
    by_cases h : i.type &&& filter ≠ 0 <;>
      simp [undo_clear_list, List.filter_cons, h, ih]

/-- C1: for every filter mask and every engine state, `dt_undo_clear` leaves
both the undo stack and the redo stack completely empty, and the destructor
events it emits are exactly the releases of the filter-matching entries of
the two stacks (the filtering pass), the non-matching remainder being
discarded without release. -/
theorem C1_clear_empties_both_stacks (s : dt_undo_t) (filter : Nat) :
    (dt_undo_clear s filter).1.undo_list = [] ∧
    (dt_undo_clear s filter).1.redo_list = [] ∧
    (dt_undo_clear s filter).2 =
      (s.undo_list.filter fun i => decide (i.type &&& filter ≠ 0)).flatMap free_undo_data ++
        (s.redo_list.filter fun i => decide (i.type &&& filter ≠ 0)).flatMap free_undo_data := by
  refine ⟨rfl, rfl, ?_⟩
  simp [dt_undo_clear, undo_clear_list_events]

/-- C5: a record call that actually stores an entry (suppression flag clear,
no replay in progress) pushes the new item, empties the redo stack releasing
every entry that was in it, and a `perform(REDO, mask)` issued right after
finds no matching entry: it leaves both stacks unchanged and invokes no
callback. -/
theorem C5_record_invalidates_redo (s : dt_undo_t) (u t d : Nat) (hf : Bool) (ts : ℚ)
    (mask : Nat) (h1 : s.disable_next = false) (h2 : s.locked = false) :
    (dt_undo_record s u t d hf ts).1.undo_list = ⟨u, t, d, ts, false, hf⟩ :: s.undo_list ∧
    (dt_undo_record s u t d hf ts).1.redo_list = [] ∧
    (dt_undo_record s u t d hf ts).2 = s.redo_list.flatMap free_undo_data ∧
    (dt_undo_do_redo (dt_undo_record s u t d hf ts).1 mask).1.undo_list
      = (dt_undo_record s u t d hf ts).1.undo_list ∧
    (dt_undo_do_redo (dt_undo_record s u t d hf ts).1 mask).1.redo_list
      = (dt_undo_record s u t d hf ts).1.redo_list ∧
    (dt_undo_do_redo (dt_undo_record s u t d hf ts).1 mask).2 = [] := by
  simp [dt_undo_record, undo_record, h1, h2, dt_undo_do_redo, undo_do_undo_redo, performFrom]

theorem C5_witness :
    ((⟨[], [⟨1, 2, 3, 0, false, true⟩], false, false, 0, 0⟩ : dt_undo_t).disable_next = false) ∧
    (dt_undo_record ⟨[], [⟨1, 2, 3, 0, false, true⟩], false, false, 0, 0⟩ 2 4 9 true 7).1.redo_list
      = [] ∧
    (dt_undo_record ⟨[], [⟨1, 2, 3, 0, false, true⟩], false, false, 0, 0⟩ 2 4 9 true 7).2
      = [Event.free 3] ∧
    (dt_undo_do_redo
      (dt_undo_record ⟨[], [⟨1, 2, 3, 0, false, true⟩], false, false, 0, 0⟩ 2 4 9 true 7).1 6).2
      = [] := by
  have h := C5_record_invalidates_redo ⟨[], [⟨1, 2, 3, 0, false, true⟩], false, false, 0, 0⟩
    2 4 9 true 7 6 rfl rfl
  refine ⟨rfl, h.2.1, ?_, h.2.2.2.2.2⟩
  rw [h.2.2.1]
  rfl

/-- C8: a record call made while a replay is in progress (`locked` set) is
dropped entirely — the state is unchanged and no event (neither a callback
nor a destructor) is emitted — provided the one-shot suppression flag is not
set. -/
theorem C8_reentrant_record_dropped (s : dt_undo_t) (u t d : Nat) (hf : Bool) (ts : ℚ)
    (hL : s.locked = true) (hD : s.disable_next = false) :
    dt_undo_record s u t d hf ts = (s, []) := by
  simp [dt_undo_record, undo_record, hL, hD]

theorem C8_witness :
    ((⟨[⟨1, 1, 1, 0, false, true⟩], [⟨2, 2, 2, 0, false, true⟩], false, true, 0, 0⟩ :
        dt_undo_t).locked = true) ∧
    dt_undo_record
        ⟨[⟨1, 1, 1, 0, false, true⟩], [⟨2, 2, 2, 0, false, true⟩], false, true, 0, 0⟩ 3 4 5 true 6
      = (⟨[⟨1, 1, 1, 0, false, true⟩], [⟨2, 2, 2, 0, false, true⟩], false, true, 0, 0⟩, []) :=
  ⟨rfl, C8_reentrant_record_dropped _ 3 4 5 true 6 rfl rfl⟩

/-- C10: `dt_undo_clear` also resets the one-shot suppression flag, so a
record issued after `disable_next(); clear(mask)` is stored normally: the new
entry lands alone on the undo stack and no payload is released. -/
theorem C10_clear_resets_disable_next (s : dt_undo_t) (filter u t d : Nat) (hf : Bool)
    (ts : ℚ) :
    (dt_undo_clear (dt_undo_disable_next s) filter).1.disable_next = false ∧
    (dt_undo_record (dt_undo_clear (dt_undo_disable_next s) filter).1 u t d hf ts).1.undo_list
      = [⟨u, t, d, ts, false, hf⟩] ∧
    (dt_undo_record (dt_undo_clear (dt_undo_disable_next s) filter).1 u t d hf ts).1.redo_list
      = [] ∧
    (dt_undo_record (dt_undo_clear (dt_undo_disable_next s) filter).1 u t d hf ts).2 = [] :=
  ⟨rfl, rfl, rfl, rfl⟩

/-- C6: for a state whose undo stack holds exactly one plain entry of kind
`K` and whose redo stack is empty, `perform(UNDO, K)` then `perform(REDO, K)`
invokes that entry's callback exactly twice, first with UNDO then with REDO,
and afterwards the entry is back on the undo stack with the redo stack empty
again. -/
theorem C6_round_trip (s : dt_undo_t) (K u d : Nat) (hf : Bool) (t : ℚ)
    (hK : K &&& K ≠ 0)
    (hu : s.undo_list = [⟨u, K, d, t, false, hf⟩])
    (hr : s.redo_list = []) :
    (dt_undo_do_undo s K).2 = [Event.apply u K d .undo] ∧
    (dt_undo_do_redo (dt_undo_do_undo s K).1 K).2 = [Event.apply u K d .redo] ∧
    (dt_undo_do_redo (dt_undo_do_undo s K).1 K).1.undo_list = [⟨u, K, d, t, false, hf⟩] ∧
    (dt_undo_do_redo (dt_undo_do_undo s K).1 K).1.redo_list = [] := by
  have hK0 : K ≠ 0 := fun h => hK (by simp [h])
  simp [dt_undo_do_undo, dt_undo_do_redo, undo_do_undo_redo, hu, hr, performFrom,
    coalesceLoop, invoke, hK0]

theorem C6_witness :
    ((1 : Nat) &&& 1 ≠ 0) ∧
    (dt_undo_do_undo ⟨[⟨3, 1, 9, 0, false, true⟩], [], false, false, 0, 0⟩ 1).2
      = [Event.apply 3 1 9 .undo] ∧
    (dt_undo_do_redo
        (dt_undo_do_undo ⟨[⟨3, 1, 9, 0, false, true⟩], [], false, false, 0, 0⟩ 1).1 1).2
      = [Event.apply 3 1 9 .redo] ∧
    (dt_undo_do_redo
        (dt_undo_do_undo ⟨[⟨3, 1, 9, 0, false, true⟩], [], false, false, 0, 0⟩ 1).1 1).1.undo_list
      = [⟨3, 1, 9, 0, false, true⟩] ∧
    (dt_undo_do_redo
        (dt_undo_do_undo ⟨[⟨3, 1, 9, 0, false, true⟩], [], false, false, 0, 0⟩ 1).1 1).1.redo_list
      = [] :=
  ⟨by decide,
    C6_round_trip ⟨[⟨3, 1, 9, 0, false, true⟩], [], false, false, 0, 0⟩ 1 3 9 true 0
      (by decide) rfl rfl⟩

/-- C4: for two consecutive plain entries of the same kind at the front of
the source stack, one perform call replays both exactly when the absolute
difference of their timestamps is strictly below the 0.5 s window, and
replays only the first one (a second call picking up the other) when the
difference is 0.5 s or more; moreover the window is always measured against
the timestamp of the first entry of the run — a third entry within 0.5 s of
its predecessor but not of the first entry is not coalesced. -/
theorem C4_time_window_coalescing (K : Nat) (action : Action) (u1 u2 u3 d1 d2 d3 : Nat)
    (hf1 hf2 hf3 : Bool) (t1 t2 t3 : ℚ) (hK : K &&& K ≠ 0) :
    (|t2 - t1| < MAX_TIME_PERIOD →
      performFrom K action [⟨u1, K, d1, t1, false, hf1⟩, ⟨u2, K, d2, t2, false, hf2⟩]
        = ([], [⟨u1, K, d1, t1, false, hf1⟩, ⟨u2, K, d2, t2, false, hf2⟩],
            [Event.apply u1 K d1 action, Event.apply u2 K d2 action])) ∧
    (MAX_TIME_PERIOD ≤ |t2 - t1| →
      performFrom K action [⟨u1, K, d1, t1, false, hf1⟩, ⟨u2, K, d2, t2, false, hf2⟩]
        = ([⟨u2, K, d2, t2, false, hf2⟩], [⟨u1, K, d1, t1, false, hf1⟩],
            [Event.apply u1 K d1 action]) ∧
      performFrom K action [⟨u2, K, d2, t2, false, hf2⟩]
        = ([], [⟨u2, K, d2, t2, false, hf2⟩], [Event.apply u2 K d2 action])) ∧
    (|t2 - t1| < MAX_TIME_PERIOD → MAX_TIME_PERIOD ≤ |t3 - t1| →
      performFrom K action
          [⟨u1, K, d1, t1, false, hf1⟩, ⟨u2, K, d2, t2, false, hf2⟩,
            ⟨u3, K, d3, t3, false, hf3⟩]
        = ([⟨u3, K, d3, t3, false, hf3⟩],
            [⟨u1, K, d1, t1, false, hf1⟩, ⟨u2, K, d2, t2, false, hf2⟩],
            [Event.apply u1 K d1 action, Event.apply u2 K d2 action])) := by
  have hK0 : K ≠ 0 := fun h => hK (by simp [h])
  refine ⟨fun h => ?_, fun h => ⟨?_, ?_⟩, fun h h3 => ?_⟩
  · simp [performFrom, coalesceLoop, invoke, hK0, h]
  · simp [performFrom, coalesceLoop, invoke, hK0, not_lt.mpr h]
  · simp [performFrom, coalesceLoop, invoke, hK0]
  · simp [performFrom, coalesceLoop, invoke, hK0, h, not_lt.mpr h3]

theorem C4_witness :
    ((1 : Nat) &&& 1 ≠ 0) ∧
    ((|(0 : ℚ) - 0| < MAX_TIME_PERIOD →
      performFrom 1 .undo [⟨4, 1, 6, 0, false, false⟩, ⟨5, 1, 7, 0, false, false⟩]
        = ([], [⟨4, 1, 6, 0, false, false⟩, ⟨5, 1, 7, 0, false, false⟩],
            [Event.apply 4 1 6 .undo, Event.apply 5 1 7 .undo])) ∧
    (MAX_TIME_PERIOD ≤ |(0 : ℚ) - 0| →
      performFrom 1 .undo [⟨4, 1, 6, 0, false, false⟩, ⟨5, 1, 7, 0, false, false⟩]
        = ([⟨5, 1, 7, 0, false, false⟩], [⟨4, 1, 6, 0, false, false⟩],
            [Event.apply 4 1 6 .undo]) ∧
      performFrom 1 .undo [⟨5, 1, 7, 0, false, false⟩]
        = ([], [⟨5, 1, 7, 0, false, false⟩], [Event.apply 5 1 7 .undo])) ∧
    (|(0 : ℚ) - 0| < MAX_TIME_PERIOD → MAX_TIME_PERIOD ≤ |(1 : ℚ) - 0| →
      performFrom 1 .undo
          [⟨4, 1, 6, 0, false, false⟩, ⟨5, 1, 7, 0, false, false⟩, ⟨8, 1, 9, 1, false, false⟩]
        = ([⟨8, 1, 9, 1, false, false⟩],
            [⟨4, 1, 6, 0, false, false⟩, ⟨5, 1, 7, 0, false, false⟩],
            [Event.apply 4 1 6 .undo, Event.apply 5 1 7 .undo]))) :=
  ⟨by decide, C4_time_window_coalescing 1 .undo 4 5 8 6 7 9 false false false 0 0 1 (by decide)⟩

/-- C3: after `begin_group(K)`, three records of kind `K` and `end_group()`,
one `perform(UNDO, K)` replays the three entries newest-first with UNDO and
moves all five entries (records plus both sentinels) to the redo stack in
that single call; a following `perform(REDO, K)` replays them oldest-first
with REDO and moves all five back to the undo stack. -/
theorem C3_group_atomicity (K u1 u2 u3 d1 d2 d3 : Nat) (hf1 hf2 hf3 : Bool)
    (t0 t1 t2 t3 t4 : ℚ) (hK : K &&& K ≠ 0) :
    (dt_undo_end_group
        (dt_undo_record
          (dt_undo_record
            (dt_undo_record (dt_undo_start_group dt_undo_init K t0).1 u1 K d1 hf1 t1).1
            u2 K d2 hf2 t2).1
          u3 K d3 hf3 t3).1
        t4).map
      (fun r =>
        let q1 := dt_undo_do_undo r.1 K
        let q2 := dt_undo_do_redo q1.1 K
        (r.1.undo_list, q1.2, q1.1.undo_list, q1.1.redo_list,
          q2.2, q2.1.undo_list, q2.1.redo_list))
    = some
        ([⟨0, K, 0, t4, true, false⟩, ⟨u3, K, d3, t3, false, hf3⟩,
            ⟨u2, K, d2, t2, false, hf2⟩, ⟨u1, K, d1, t1, false, hf1⟩,
            ⟨0, K, 0, t0, true, false⟩],
          [Event.apply u3 K d3 .undo, Event.apply u2 K d2 .undo, Event.apply u1 K d1 .undo],
          [],
          [⟨0, K, 0, t0, true, false⟩, ⟨u1, K, d1, t1, false, hf1⟩,
            ⟨u2, K, d2, t2, false, hf2⟩, ⟨u3, K, d3, t3, false, hf3⟩,
            ⟨0, K, 0, t4, true, false⟩],
          [Event.apply u1 K d1 .redo, Event.apply u2 K d2 .redo, Event.apply u3 K d3 .redo],
          [⟨0, K, 0, t4, true, false⟩, ⟨u3, K, d3, t3, false, hf3⟩,
            ⟨u2, K, d2, t2, false, hf2⟩, ⟨u1, K, d1, t1, false, hf1⟩,
            ⟨0, K, 0, t0, true, false⟩],
          []) := by
  have hK0 : K ≠ 0 := fun h => hK (by simp [h])
  simp [dt_undo_init, dt_undo_start_group, dt_undo_record, undo_record, dt_undo_end_group,
    dt_undo_do_undo, dt_undo_do_redo, undo_do_undo_redo, performFrom, groupRun,
    coalesceLoop, invoke, DT_UNDO_NONE, hK0]

theorem C3_witness :
    ((1 : Nat) &&& 1 ≠ 0) ∧
    (dt_undo_end_group
        (dt_undo_record
          (dt_undo_record
            (dt_undo_record (dt_undo_start_group dt_undo_init 1 0).1 11 1 21 false 0).1
            12 1 22 false 0).1
          13 1 23 false 0).1
        0).map
      (fun r =>
        let q1 := dt_undo_do_undo r.1 1
        let q2 := dt_undo_do_redo q1.1 1
        (r.1.undo_list, q1.2, q1.1.undo_list, q1.1.redo_list,
          q2.2, q2.1.undo_list, q2.1.redo_list))
    = some
        ([⟨0, 1, 0, 0, true, false⟩, ⟨13, 1, 23, 0, false, false⟩,
            ⟨12, 1, 22, 0, false, false⟩, ⟨11, 1, 21, 0, false, false⟩,
            ⟨0, 1, 0, 0, true, false⟩],
          [Event.apply 13 1 23 .undo, Event.apply 12 1 22 .undo, Event.apply 11 1 21 .undo],
          [],
          [⟨0, 1, 0, 0, true, false⟩, ⟨11, 1, 21, 0, false, false⟩,
            ⟨12, 1, 22, 0, false, false⟩, ⟨13, 1, 23, 0, false, false⟩,
            ⟨0, 1, 0, 0, true, false⟩],
          [Event.apply 11 1 21 .redo, Event.apply 12 1 22 .redo, Event.apply 13 1 23 .redo],
          [⟨0, 1, 0, 0, true, false⟩, ⟨13, 1, 23, 0, false, false⟩,
            ⟨12, 1, 22, 0, false, false⟩, ⟨11, 1, 21, 0, false, false⟩,
            ⟨0, 1, 0, 0, true, false⟩],
          []) :=
  ⟨by decide, C3_group_atomicity 1 11 12 13 21 22 23 false false false 0 0 0 0 0 (by decide)⟩

/-- C9: `end_group` with no open group violates its checked precondition
(modelled as `none`); under a positive nesting depth it succeeds, decrements
the depth, leaves everything else untouched while the depth stays positive,
and exactly when the depth reaches zero resets the open-group state to
`DT_UNDO_NONE` and records one end sentinel carrying the open group's kind
(the sentinel actually landing on the undo stack whenever the recording path
is not suppressed or locked). -/
theorem C9_end_group_precondition (s : dt_undo_t) (ts : ℚ) :
    (dt_undo_end_group s ts = none ↔ s.group_indent = 0) ∧
    (0 < s.group_indent →
      ∃ s2 ev, dt_undo_end_group s ts = some (s2, ev) ∧
        s2.group_indent = s.group_indent - 1 ∧
        (1 < s.group_indent → s2 = { s with group_indent := s.group_indent - 1 } ∧ ev = []) ∧
        (s.group_indent = 1 → s2.group = DT_UNDO_NONE ∧
          (s.disable_next = false → s.locked = false →
            s2.undo_list = ⟨0, s.group, 0, ts, true, false⟩ :: s.undo_list ∧
            s2.redo_list = []))) := by
  constructor
  · constructor
    · intro h
      by_contra hne
      by_cases h2 : s.group_indent - 1 = 0 <;>
        simp [dt_undo_end_group, hne, h2] at h
    · intro h
      simp [dt_undo_end_group, h]
  · intro h
    have h0 : ¬ s.group_indent = 0 := by omega
    by_cases h1 : s.group_indent = 1
    · refine ⟨{ (undo_record { s with group_indent := s.group_indent - 1 } 0 s.group 0 true
            false ts).1 with group := DT_UNDO_NONE },
        (undo_record { s with group_indent := s.group_indent - 1 } 0 s.group 0 true false
          ts).2, ?_, ?_, ?_, ?_⟩
      · simp [dt_undo_end_group, h0, h1]
      · by_cases hd : s.disable_next <;> by_cases hl : s.locked <;>
          simp [undo_record, hd, hl, h1]
      · intro hgt
        omega
      · intro _
        refine ⟨rfl, fun hd hl => ?_⟩
        simp [undo_record, hd, hl]
    · have h2 : ¬ s.group_indent - 1 = 0 := by omega
      refine ⟨{ s with group_indent := s.group_indent - 1 }, [], ?_, rfl,
        fun _ => ⟨rfl, rfl⟩, fun he => absurd he h1⟩
      simp [dt_undo_end_group, h0, h2]

theorem C9_witness :
    (0 < (1 : Nat)) ∧
    ∃ s2 ev,
      dt_undo_end_group ⟨[], [], false, false, 5, 1⟩ 0 = some (s2, ev) ∧
        s2.group_indent = (⟨[], [], false, false, 5, 1⟩ : dt_undo_t).group_indent - 1 ∧
        (1 < (⟨[], [], false, false, 5, 1⟩ : dt_undo_t).group_indent →
          s2 = { (⟨[], [], false, false, 5, 1⟩ : dt_undo_t) with group_indent :=
              (⟨[], [], false, false, 5, 1⟩ : dt_undo_t).group_indent - 1 } ∧ ev = []) ∧
        ((⟨[], [], false, false, 5, 1⟩ : dt_undo_t).group_indent = 1 →
          s2.group = DT_UNDO_NONE ∧
          ((⟨[], [], false, false, 5, 1⟩ : dt_undo_t).disable_next = false →
            (⟨[], [], false, false, 5, 1⟩ : dt_undo_t).locked = false →
            s2.undo_list = ⟨0, (⟨[], [], false, false, 5, 1⟩ : dt_undo_t).group, 0, 0, true,
                false⟩ :: (⟨[], [], false, false, 5, 1⟩ : dt_undo_t).undo_list ∧
            s2.redo_list = [])) :=
  ⟨by decide, (C9_end_group_precondition ⟨[], [], false, false, 5, 1⟩ 0).2 (by decide)⟩

theorem coalesceLoop_no_sentinels (filter : Nat) (action : Action) (fts : ℚ) :
    ∀ (l : List Item) (item : Item), item.is_group = false →
      (∀ i ∈ l, i.is_group = false) →
      ∃ c r2,
        coalesceLoop filter action fts l false item
          = (item :: c, r2, (item :: c).map (fun i => invoke i action)) ∧
        c ++ r2 = l ∧ ∀ i ∈ c, i.type &&& filter ≠ 0 := by
  intro l
  induction l with
  | nil =>
    intro item hi _
    exact ⟨[], [], by simp [coalesceLoop, hi], rfl, by simp⟩
  | cons next rest ih =>
    intro item hi hl
    by_cases hc : next.type &&& filter ≠ 0 ∧ |next.ts - fts| < MAX_TIME_PERIOD
    · obtain ⟨c, r2, heq, hcr, hmatch⟩ :=
        ih next (hl next (by simp)) (fun i hmem => hl i (by simp [hmem]))
      refine ⟨next :: c, r2, ?_, by simp [hcr], ?_⟩
      · simp [coalesceLoop, hi, hc.1, hc.2, heq]
      · intro i hmem
        rcases List.mem_cons.1 hmem with h1 | h2
        · exact h1 ▸ hc.1
        · exact hmatch i h2
    · refine ⟨[], next :: rest, ?_, rfl, by simp⟩
      simp only [coalesceLoop, hi]
      simp [hc]

/-- C2 as stated is false on the code: in the sentinel branch of
`_undo_do_undo_redo` the interior of a group is replayed with no filter
check.  Here the undo stack is a kind-1 sentinel pair enclosing one kind-2
entry; `perform(UNDO, 1)` invokes that entry's callback even though its kind
does not match the mask (`2 &&& 1 = 0`), and moves it off the undo stack. -/
theorem C2_filter_selectivity_counterexample :
    ((2 : Nat) &&& 1 = 0) ∧
    (dt_undo_do_undo
        ⟨[⟨0, 1, 0, 0, true, false⟩, ⟨7, 2, 42, 0, false, true⟩, ⟨0, 1, 0, 0, true, false⟩],
          [], false, false, 0, 0⟩ 1).2
      = [Event.apply 7 2 42 .undo] ∧
    (dt_undo_do_undo
        ⟨[⟨0, 1, 0, 0, true, false⟩, ⟨7, 2, 42, 0, false, true⟩, ⟨0, 1, 0, 0, true, false⟩],
          [], false, false, 0, 0⟩ 1).1.undo_list
      = [] ∧
    (dt_undo_do_undo
        ⟨[⟨0, 1, 0, 0, true, false⟩, ⟨7, 2, 42, 0, false, true⟩, ⟨0, 1, 0, 0, true, false⟩],
          [], false, false, 0, 0⟩ 1).1.redo_list
      = [⟨0, 1, 0, 0, true, false⟩, ⟨7, 2, 42, 0, false, true⟩, ⟨0, 1, 0, 0, true, false⟩] := by
  decide

/-- C2 amended: as long as the source stack contains no group sentinels, an
entry whose kind does not match the filter mask is never replayed by one
perform pass — every emitted callback carries a kind matching the mask — and
all non-matching entries remain in the source stack in their relative order;
moreover, with a mask disjoint from every entry of the stack (sentinels
included) the pass is a complete no-op.  Interior entries of a group headed
by a matching sentinel, by contrast, are replayed regardless of their kind,
as the counterexample shows. -/
theorem C2_filter_selectivity (filter : Nat) (action : Action) (l : List Item) :
    ((∀ i ∈ l, i.is_group = false) →
      (∀ u t d a, Event.apply u t d a ∈ (performFrom filter action l).2.2 →
        t &&& filter ≠ 0) ∧
      (performFrom filter action l).1.filter (fun i => decide (i.type &&& filter = 0))
        = l.filter (fun i => decide (i.type &&& filter = 0))) ∧
    ((∀ i ∈ l, i.type &&& filter = 0) →
      performFrom filter action l = (l, [], [])) := by
  refine ⟨?_, ?_⟩
  case refine_2 =>
    intro h
    induction l with
    | nil => rfl
    | cons item rest ih =>
      have hm : ¬ item.type &&& filter ≠ 0 := fun hc => hc (h item (by simp))
      have hrest : ∀ i ∈ rest, i.type &&& filter = 0 := fun i hi => h i (by simp [hi])
      simp only [performFrom, if_neg hm, ih hrest]
  case refine_1 =>
    intro h
    induction l with
  | nil => exact ⟨by simp [performFrom], rfl⟩
  | cons item rest ih =>
    have hitem := h item (by simp)
    have hrest : ∀ i ∈ rest, i.is_group = false := fun i hi => h i (by simp [hi])
    obtain ⟨ihev, ihfil⟩ := ih hrest
    by_cases hm : item.type &&& filter ≠ 0
    · obtain ⟨c, r2, heq, hcr, hmatch⟩ :=
        coalesceLoop_no_sentinels filter action item.ts rest item hitem hrest
      constructor
      · intro u t d a hev
        simp only [performFrom, if_pos hm, hitem] at hev
        rw [if_neg (by simp)] at hev
        rw [heq] at hev
        obtain ⟨i, hi, hinv⟩ := List.mem_map.1 hev
        have ht : t = i.type := by
          simp [invoke] at hinv
          exact hinv.2.1.symm
        rcases List.mem_cons.1 hi with h1 | h2
        · exact ht ▸ (h1 ▸ hm)
        · exact ht ▸ hmatch i h2
      · have hpc : List.filter (fun i => decide (i.type &&& filter = 0)) c = [] :=
          List.filter_eq_nil_iff.2 (fun i hi => by simpa using hmatch i hi)
        simp only [performFrom, if_pos hm, hitem]
        rw [if_neg (by simp), heq]
        simp only [List.filter_cons]
        rw [if_neg (by simpa using hm), ← hcr, List.filter_append, hpc]
        rfl
    · constructor
      · intro u t d a hev
        simp only [performFrom, if_neg hm] at hev
        exact ihev u t d a hev
      · simp only [performFrom, if_neg hm, List.filter_cons]
        have : decide (item.type &&& filter = 0) = true := by
          simpa using of_not_not (fun hcon => hm (by simpa using hcon))
        simp [this, ihfil]

theorem C2_filter_selectivity_witness :
    ((∀ u t d a, Event.apply u t d a ∈ (performFrom 1 .undo [⟨3, 2, 5, 0, false, false⟩]).2.2 →
      t &&& 1 ≠ 0) ∧
    (performFrom 1 .undo [⟨3, 2, 5, 0, false, false⟩]).1.filter
        (fun i => decide (i.type &&& 1 = 0))
      = [(⟨3, 2, 5, 0, false, false⟩ : Item)].filter (fun i => decide (i.type &&& 1 = 0))) ∧
    performFrom 1 .undo [⟨0, 2, 0, 0, true, false⟩, ⟨3, 2, 5, 0, false, false⟩]
      = ([⟨0, 2, 0, 0, true, false⟩, ⟨3, 2, 5, 0, false, false⟩], [], []) :=
  ⟨(C2_filter_selectivity 1 .undo [⟨3, 2, 5, 0, false, false⟩]).1 (by decide),
    (C2_filter_selectivity 1 .undo
      [⟨0, 2, 0, 0, true, false⟩, ⟨3, 2, 5, 0, false, false⟩]).2 (by decide)⟩

theorem TReach_TInv : ∀ s : dt_undo_t, TReach s → TInv s := by
  intro s h
  induction h with
  | init =>
    exact ⟨rfl, rfl, rfl, fun _ => ⟨rfl, rfl⟩, fun hg => absurd rfl hg⟩
  | step_record s u t d hf ts hr ih =>
    obtain ⟨hd, hl, hredo, hnone, hsome⟩ := ih
    have hst : (dt_undo_record s u t d hf ts).1
        = { s with undo_list := ⟨u, t, d, ts, false, hf⟩ :: s.undo_list, redo_list := [] } := by
      simp [dt_undo_record, undo_record, hd, hl]
    rw [hst]
    refine ⟨hd, hl, rfl, fun hg => ?_, fun hg => ?_⟩
    · obtain ⟨hi, hw⟩ := hnone hg
      exact ⟨hi, by simpa [wfAux] using hw⟩
    · obtain ⟨hi, hw⟩ := hsome hg
      exact ⟨hi, by simpa [wfAux] using hw⟩
  | step_begin s t ts hr htne ih =>
    obtain ⟨hd, hl, hredo, hnone, hsome⟩ := ih
    by_cases hg : s.group = DT_UNDO_NONE
    · obtain ⟨hi, hw⟩ := hnone hg
      have hst : (dt_undo_start_group s t ts).1
          = { s with
              undo_list := ⟨0, t, 0, ts, true, false⟩ :: s.undo_list
              redo_list := []
              group := t
              group_indent := 1 } := by
        simp [dt_undo_start_group, hg, undo_record, hd, hl]
      rw [hst]
      exact ⟨hd, hl, rfl, fun hgg => absurd hgg htne,
        fun _ => ⟨le_refl 1, by simpa [wfAux] using hw⟩⟩
    · obtain ⟨hi, hw⟩ := hsome hg
      have hst : (dt_undo_start_group s t ts).1
          = { s with group_indent := s.group_indent + 1 } := by
        simp [dt_undo_start_group, hg]
      rw [hst]
      exact ⟨hd, hl, hredo, fun hgg => absurd hgg hg,
        fun _ => ⟨Nat.le_add_left 1 s.group_indent, hw⟩⟩
  | step_end s s2 ev ts hr heq ih =>
    obtain ⟨hd, hl, hredo, hnone, hsome⟩ := ih
    have hi0 : s.group_indent ≠ 0 := by
      intro h0
      rw [dt_undo_end_group] at heq
      simp [h0] at heq
    have hgne : s.group ≠ DT_UNDO_NONE := fun hg => hi0 (hnone hg).1
    obtain ⟨hile, hw⟩ := hsome hgne
    by_cases h1 : s.group_indent = 1
    · have hcalc : dt_undo_end_group s ts
          = some ({ s with
              undo_list := ⟨0, s.group, 0, ts, true, false⟩ :: s.undo_list
              redo_list := []
              group := DT_UNDO_NONE
              group_indent := 0 }, []) := by
        simp [dt_undo_end_group, hi0, h1, undo_record, hd, hl, hredo]
      rw [hcalc] at heq
      injection heq with hpair
      injection hpair with hA hB
      subst hA
      exact ⟨hd, hl, rfl, fun _ => ⟨rfl, by simpa [wfAux] using hw⟩,
        fun hgg => absurd rfl hgg⟩
    · have h2 : s.group_indent - 1 ≠ 0 := by omega
      have hcalc : dt_undo_end_group s ts
          = some ({ s with group_indent := s.group_indent - 1 }, []) := by
        simp [dt_undo_end_group, hi0, h2]
      rw [hcalc] at heq
      injection heq with hpair
      injection hpair with hA hB
      subst hA
      exact ⟨hd, hl, hredo, fun hgg => absurd hgg hgne,
        fun _ => ⟨(by omega : 1 ≤ s.group_indent - 1), hw⟩⟩

/-- C7 as stated is false on the code: its universal clause — in every
reachable state each group is exactly one matching sentinel pair enclosing a
contiguous run of plain entries in its stack — is broken by the plain-entry
branch of `perform`.  From a fresh engine: `begin_group(1)`, record of a
kind-2 entry inside the group, `end_group()`, then a kind-1 record;
`perform(UNDO, 1)` coalesces the plain kind-1 entry with the end sentinel
(same kind, same time window), enters the group, then stops at the interior
kind-2 entry, leaving a lone unmatched sentinel in each stack (`wfStack`
false on both). -/
theorem C7_sentinel_pairing_counterexample :
    (dt_undo_end_group
        ((dt_undo_record ((dt_undo_start_group dt_undo_init 1 0).1) 7 2 21 false 0).1) 0).map
      (fun r =>
        let sc := (dt_undo_do_undo ((dt_undo_record r.1 8 1 22 false 0).1) 1).1
        (sc.undo_list, sc.redo_list, wfStack sc.undo_list, wfStack sc.redo_list))
    = some
        ([⟨7, 2, 21, 0, false, false⟩, ⟨0, 1, 0, 0, true, false⟩],
          [⟨0, 1, 0, 0, true, false⟩, ⟨8, 1, 22, 0, false, false⟩], false, false) := by
  simp [dt_undo_init, dt_undo_start_group, dt_undo_record, undo_record, dt_undo_end_group,
    dt_undo_do_undo, undo_do_undo_redo, performFrom, coalesceLoop, groupRun, invoke,
    wfStack, wfAux, DT_UNDO_NONE, MAX_TIME_PERIOD]

/-- C7 amended: nested transactions flatten — `begin_group(K)` twice, one
record, `end_group()` twice push exactly one start and one end sentinel
around the entry, the inner pair only moving the nesting counter — and in
every state reachable through the transaction surface itself (record,
`begin_group` with a real kind, `end_group`; no replay, suppression or
clear), the stored stacks contain no unmatched and no nested sentinel pairs:
the redo stack is empty and the undo stack is well paired (`wfStack`, with
exactly the pending start sentinel open while a group is open). -/
theorem C7_nested_groups_flatten (K Ke u d : Nat) (hf : Bool) (t0 t1 t2 t3 t4 : ℚ)
    (hK : K ≠ DT_UNDO_NONE) :
    ((dt_undo_end_group
        (dt_undo_record
          (dt_undo_start_group (dt_undo_start_group dt_undo_init K t0).1 K t1).1
          u Ke d hf t2).1
        t3).bind (fun r => dt_undo_end_group r.1 t4)).map (fun r => r.1.undo_list)
      = some [⟨0, K, 0, t4, true, false⟩, ⟨u, Ke, d, t2, false, hf⟩,
          ⟨0, K, 0, t0, true, false⟩] ∧
    (∀ s, TReach s → TInv s) := by
  constructor
  · simp [dt_undo_init, dt_undo_start_group, dt_undo_record, undo_record,
      dt_undo_end_group, hK]
  · exact TReach_TInv

theorem C7_witness :
    ((1 : Nat) ≠ DT_UNDO_NONE) ∧
    ((dt_undo_end_group
        (dt_undo_record
          (dt_undo_start_group (dt_undo_start_group dt_undo_init 1 0).1 1 0).1
          3 2 4 false 0).1
        0).bind (fun r => dt_undo_end_group r.1 0)).map (fun r => r.1.undo_list)
      = some [⟨0, 1, 0, 0, true, false⟩, ⟨3, 2, 4, 0, false, false⟩,
          ⟨0, 1, 0, 0, true, false⟩] ∧
    TInv (dt_undo_start_group dt_undo_init 1 0).1 :=
  ⟨by decide,
    (C7_nested_groups_flatten 1 2 3 4 false 0 0 0 0 0 (by decide)).1,
    (C7_nested_groups_flatten 1 2 3 4 false 0 0 0 0 0 (by decide)).2
      (dt_undo_start_group dt_undo_init 1 0).1
      (TReach.step_begin dt_undo_init 1 0 TReach.init (by decide))⟩

end Undo
